import Mathlib

/-!
Shallow embedding of the audio assembly, enhancement and helper logic of the
kokoro-onnx UI repository (src/tabs/podcast.py, src/tabs/audiobook.py,
src/utils/utils.py), together with theorems settling the specification claims.

Python strings are modelled as Lean `String`; `pandas` NaN cells as `none`;
Python `float` values as `ℚ` (exact rationals, the usual idealisation of the
numeric claims, none of which depend on binary rounding); exceptions as
`Except String`.  The external synthesis engine (`kokoro.create`) and the
external DSP stages (noisereduce / pedalboard) are abstract function
parameters, since they live outside this repository.
-/

/-- Model of Python `str.strip()`: drop whitespace from both ends. -/
def pyStrip (s : String) : String :=
  String.mk (((s.data.dropWhile Char.isWhitespace).reverse.dropWhile Char.isWhitespace).reverse)

/-- Model of Python `str.lower()` on the ASCII range (voice names are ASCII). -/
def pyLowerChar (c : Char) : Char :=
  if 65 ≤ c.toNat ∧ c.toNat ≤ 90 then Char.ofNat (c.toNat + 32) else c

/-- Model of Python `str.lower()`. -/
def pyLower (s : String) : String :=
  String.mk (s.data.map pyLowerChar)

/-- Model of Python `round()` on a rational: round half to even (banker's
rounding), computed on the numerator and denominator so that it evaluates by
kernel reduction.  With `f = ⌊q⌋` the fractional part is
`(q.num - f * q.den) / q.den`; it is compared against `1/2` by comparing twice
the scaled remainder against the denominator. -/
def pyRound (q : ℚ) : ℤ :=
  let f := Int.fdiv q.num q.den
  let r2 := 2 * (q.num - f * (q.den : ℤ))
  if r2 < (q.den : ℤ) then f
  else if r2 > (q.den : ℤ) then f + 1
  else if f % 2 = 0 then f else f + 1

/-- Model of Python `int(q * sr)` for a nonnegative rational duration `q` and a
sample rate `sr` (as used for silence buffers): truncation toward zero, which
for the nonnegative products of this program is the floor
`(q.num * sr) / q.den` in floor division. -/
def silenceSamples (q : ℚ) (sr : ℕ) : ℕ :=
  (Int.fdiv (q.num * (sr : ℤ)) (q.den : ℤ)).toNat

/-- Lowercase hexadecimal digit, as produced by Python format code `02x`. -/
def hexDigitChar (n : ℕ) : Char :=
  if n < 10 then Char.ofNat (48 + n) else Char.ofNat (87 + n)

/-- Two lowercase hexadecimal digits of a byte value, Python `format(n, "02x")`. -/
def hex2 (n : ℕ) : String :=
  String.mk [hexDigitChar (n / 16 % 16), hexDigitChar (n % 16)]

/-- Model of the call `mcolors.to_hex([c / 255 for c in rgb])` of
`validate_color`, expressed on the integer channel values `rgb` it receives:
`to_hex` raises exactly when some normalised channel `k / 255` falls outside
the 0-1 range, i.e. when `k` falls outside 0-255, and otherwise formats each
channel as the two lowercase hex digits of `round((k / 255) * 255) = k`. -/
def mcolorsToHexOfBytes (ks : List ℤ) : Except String String :=
  if ks.any (fun k => decide (k < 0 ∨ k > 255)) then
    .error "RGBA values should be within 0-1 range"
  else
    .ok ("#" ++ String.join (ks.map (fun k => hex2 k.toNat)))

/-- Hex digit test of the regex character class `[0-9a-fA-F]`. -/
def isHexDigitChar (c : Char) : Bool :=
  c.isDigit || (97 ≤ c.toNat && c.toNat ≤ 102) || (65 ≤ c.toNat && c.toNat ≤ 70)

/-- Match of the regex `^#(?:[0-9a-fA-F]\x7b3\x7d)\x7b1,2\x7d$` from
`validate_color`: a hash sign followed by exactly 3 or exactly 6 hex digits. -/
def isHexColorString (s : String) : Bool :=
  match s.data with
  | [] => false
  | c :: rest =>
      c == '#' && (rest.length == 3 || rest.length == 6) && rest.all isHexDigitChar

/-- Character set of Python `s.strip("rgba()")`. -/
def rgbaStripSet : List Char := ['r', 'g', 'b', 'a', '(', ')']

/-- Model of Python `s.strip(chars)`: drop characters of the set from both ends. -/
def pyStripChars (cs : List Char) (s : String) : String :=
  String.mk (((s.data.dropWhile (fun c => cs.contains c)).reverse.dropWhile
    (fun c => cs.contains c)).reverse)

/-- Split a character list at every comma (Python `s.split(",")`, keeping empties). -/
def splitComma : List Char → List Char → List (List Char)
  | cur, [] => [cur.reverse]
  | cur, ',' :: rest => cur.reverse :: splitComma [] rest
  | cur, c :: rest => splitComma (c :: cur) rest

/-- Digits of a numeral to a natural number. -/
def digitsToNat (cs : List Char) : ℕ :=
  cs.foldl (fun acc c => acc * 10 + (c.toNat - 48)) 0

/-- Model of Python `float(s)` on plain decimal literals (optional sign, integer
part, optional fractional part); exponent forms are outside the inputs this
repository feeds to it. Returns `none` where Python raises `ValueError`. -/
def parseFloatQ (s : String) : Option ℚ :=
  let t := (pyStrip s).data
  let signAndRest : ℤ × List Char :=
    match t with
    | '-' :: rest => (-1, rest)
    | '+' :: rest => (1, rest)
    | _ => (1, t)
  let sign := signAndRest.1
  let body := signAndRest.2
  let intPart := body.takeWhile Char.isDigit
  let rest := body.dropWhile Char.isDigit
  match rest with
  | [] =>
      if intPart.isEmpty then none
      else some (Rat.divInt (sign * (digitsToNat intPart : ℤ)) 1)
  | '.' :: frac =>
      if frac.all Char.isDigit ∧ ¬(intPart.isEmpty ∧ frac.isEmpty) then
        some (Rat.divInt
          (sign * ((digitsToNat intPart : ℤ) * (10 : ℤ) ^ frac.length +
            (digitsToNat frac : ℤ)))
          ((10 : ℤ) ^ frac.length))
      else none
  | _ => none

/-- Input to `validate_color`: a string, or a tuple/list of numeric components. -/
inductive ColorInput where
  | str (s : String)
  | tup (cs : List ℚ)

/-- The numeric tail of `validate_color`: arity check, `int(round(c))` on the
first three components, alpha discarded, then `mcolors.to_hex` on the channels
normalised to 0-1. -/
def validateTuple (cs : List ℚ) : Except String String :=
  if cs.length ≠ 4 then
    .error "Invalid RGBA format. Expected a tuple (R, G, B, A)"
  else
    mcolorsToHexOfBytes ((cs.take 3).map pyRound)

/-- The string-to-tuple step of `validate_color`:
`tuple(map(float, rgba.strip("rgba()").split(",")))`. -/
def parseRgbaString (s : String) : Option (List ℚ) :=
  (splitComma [] (pyStripChars rgbaStripSet s).data).mapM
    (fun cs => parseFloatQ (String.mk cs))

/-- Embedding of `validate_color` from src/utils/utils.py. -/
def validate_color (x : ColorInput) : Except String String :=
  match x with
  | .str s =>
      if isHexColorString s then .ok s
      else
        match parseRgbaString s with
        | none => .error "could not convert string to float"
        | some cs => validateTuple cs
  | .tup cs => validateTuple cs

/-- Split a character list at every occurrence of two consecutive newlines,
leftmost first (Python `text.split("\n\n")`, keeping empties). -/
def splitPP : List Char → List Char → List (List Char)
  | cur, [] => [cur.reverse]
  | cur, '\n' :: '\n' :: rest => cur.reverse :: splitPP [] rest
  | cur, c :: rest => splitPP (c :: cur) rest

/-- Model of Python `text.split("\n\n")`. -/
def pySplitParas (s : String) : List String :=
  (splitPP [] s.data).map String.mk

/-- The paragraph split of `text_to_audiobook` (src/tabs/audiobook.py line 16):
`[p.strip() for p in text.split("\n\n") if p.strip()]`. -/
def audiobook_paragraphs (text : String) : List String :=
  ((pySplitParas text).map pyStrip).filter (fun p => p != "")

/-- Per-paragraph audio chunks of `text_to_audiobook` (src/tabs/audiobook.py
lines 21-34): for each paragraph, the synthesized mono samples followed by a
fixed `int(0.5 * sr)`-sample silence. The synthesis engine is the abstract
parameter `kok : paragraph ↦ (samples, sample_rate)`. -/
def audiobook_chunks (kok : String → List ℚ × ℕ) : List String → List (List ℚ)
  | [] => []
  | par :: rest =>
      (kok par).1 ::
        List.replicate (silenceSamples (mkRat 1 2) (kok par).2) 0 ::
          audiobook_chunks kok rest

/-- One row of the podcast script table (src/tabs/podcast.py): the `voice` and
`text` cells; `none` models a pandas NaN cell of an empty row. -/
structure Row where
  voice : Option String
  text : Option String

/-- The per-row loop of `create_podcast` (src/tabs/podcast.py lines 13-46).
`kok` is the external synthesis engine `kokoro.create`, taking the text and
the voice and returning `(samples, sample_rate)`; `av` is `available_voices`;
`p` is the stream of values drawn by `np.random.uniform(0.5, 1.0)`, indexed by
row number.  The accumulator `chunks` is the `audio` list, `sr` the running
`sample_rate` variable.  A row with a NaN field is skipped; an invalid voice
or blank text raises; a synthesized row appends the stereo samples and then a
stereo silence of `int(duration * sr)` frames. -/
def podcastLoop (kok : String → String → List ℚ × ℕ) (av : List String) (p : ℕ → ℚ) :
    ℕ → List Row → List (List (ℚ × ℚ)) → Option ℕ →
      Except String (Option ℕ × List (List (ℚ × ℚ)))
  | _, [], chunks, sr => .ok (sr, chunks)
  | i, r :: rest, chunks, sr =>
    match r.voice, r.text with
    | none, _ => podcastLoop kok av p (i + 1) rest chunks sr
    | some _, none => podcastLoop kok av p (i + 1) rest chunks sr
    | some v, some t =>
      if v = "" ∨ v ∉ av then
        .error ("Invalid voice \x27" ++ v ++ "\x27 at row " ++ toString (i + 1))
      else if pyStrip t = "" then
        .error ("Empty text at row " ++ toString (i + 1))
      else
        let res := kok t v
        let stereo := res.1.map (fun x => (x, x))
        let silence : List (ℚ × ℚ) := List.replicate (silenceSamples (p i) res.2) (0, 0)
        podcastLoop kok av p (i + 1) rest (chunks ++ [stereo, silence]) (some res.2)

/-- The body of `create_podcast` inside its `try` block: run the row loop and
concatenate the collected parts.  `np.concatenate` on an empty list raises,
which the model records as the corresponding error string. -/
def create_podcast_body (kok : String → String → List ℚ × ℕ) (av : List String)
    (p : ℕ → ℚ) (sentences : List Row) : Except String (Option ℕ × List (ℚ × ℚ)) :=
  match podcastLoop kok av p 0 sentences [] none with
  | .error e => .error e
  | .ok (sr, chunks) =>
      if chunks = [] then .error "need at least one array to concatenate"
      else .ok (sr, chunks.flatten)

/-- Embedding of `create_podcast` (src/tabs/podcast.py lines 7-55): the whole
body runs inside `try`, and the `except` clause prints the error and returns
`None`, modelled by `Except.toOption`. -/
def create_podcast (kok : String → String → List ℚ × ℕ) (av : List String)
    (p : ℕ → ℚ) (sentences : List Row) : Option (Option ℕ × List (ℚ × ℚ)) :=
  (create_podcast_body kok av p sentences).toOption

/-- Split a character list at the first colon (Python `line.partition(":")`):
`none` when no colon occurs, otherwise the parts before and after it. -/
def splitAtColon : List Char → Option (List Char × List Char)
  | [] => none
  | c :: rest =>
      if c = ':' then some ([], rest)
      else
        match splitAtColon rest with
        | some (a, b) => some (c :: a, b)
        | none => none

/-- Processing of a single line of an uploaded script file
(src/tabs/podcast.py lines 168-180): strip the line; a blank line is skipped
(`.ok none`); a missing colon, an unknown speaker after stripping and
lower-casing, or empty text after the colon is an error; otherwise the parsed
`(voice, text)` entry is produced. -/
def lineResult (av : List String) (l : String) : Except String (Option (String × String)) :=
  let line := pyStrip l
  if line = "" then .ok none
  else
    match splitAtColon line.data with
    | none => .error "Missing colon separator"
    | some (a, b) =>
        let voice := pyLower (pyStrip (String.mk a))
        let text := pyStrip (String.mk b)
        if voice ∈ av then
          if text = "" then .error "Empty text after colon"
          else .ok (some (voice, text))
        else .error ("Voice \x27" ++ voice ++ "\x27 not in available voices")

/-- The enumerated line loop of `handle_file_upload` (src/tabs/podcast.py
lines 167-182): lines are numbered from 1; the first failing line aborts with
an error message carrying its number; valid entries accumulate in order. -/
def uploadLoop (av : List String) : ℕ → List String → List (String × String) →
    Except String (List (String × String))
  | _, [], acc => .ok acc
  | n, l :: rest, acc =>
    match lineResult av l with
    | .error m => .error ("Line " ++ toString n ++ ": " ++ m)
    | .ok none => uploadLoop av (n + 1) rest acc
    | .ok (some e) => uploadLoop av (n + 1) rest (acc ++ [e])

/-- Model of Python `content.splitlines()` restricted to `\n` separators: the
split keeps interior empties and drops a final empty piece produced by a
trailing newline. -/
def splitNL : List Char → List Char → List (List Char)
  | cur, [] => [cur.reverse]
  | cur, '\n' :: rest => cur.reverse :: splitNL [] rest
  | cur, c :: rest => splitNL (c :: cur) rest

/-- Python `content.splitlines()` on newline-separated content. -/
def pySplitLines (s : String) : List String :=
  if s = "" then []
  else
    let parts := (splitNL [] s.data).map String.mk
    match parts.getLast? with
    | some "" => parts.dropLast
    | _ => parts

/-- Embedding of `handle_file_upload` (src/tabs/podcast.py lines 163-188) on
the file content: the outer `except` wraps any parse error in a
"File processing error" message; on success the parsed table is returned. -/
def handle_file_upload (av : List String) (content : String) :
    Except String (List (String × String)) :=
  match uploadLoop av 1 (pySplitLines content) [] with
  | .error m => .error ("File processing error: " ++ m)
  | .ok d => .ok d

/-- The external DSP stages used by `process_audio_enhancement`
(src/utils/utils.py lines 10-63): `nr.reduce_noise` and the four pedalboard
plugins, each a pure function of its parameters, the sample rate and the
buffer, abstract because they live in external libraries. -/
structure Stages (A : Type) where
  reduce_noise : A → ℕ → Bool → ℚ → A
  noise_gate : ℚ → ℚ → ℚ → ℕ → A → A
  compressor : ℚ → ℚ → ℕ → A → A
  low_shelf_filter : ℚ → ℚ → ℕ → A → A
  gain : ℚ → ℕ → A → A

/-- The parameters of `process_audio_enhancement`, one field per keyword
argument controlling a stage. -/
structure EnhanceParams where
  sample_rate : ℕ
  noise_reduction : Bool
  noise_stationary : Bool
  noise_prop_decrease : ℚ
  gate_threshold : ℚ
  gate_ratio_val : ℚ
  gate_release : ℚ
  comp_threshold : ℚ
  comp_ratio_val : ℚ
  low_shelf_cutoff : ℚ
  low_shelf_gain : ℚ
  output_gain : ℚ

/-- Embedding of `process_audio_enhancement` (src/utils/utils.py lines 11-63)
on the in-memory buffer: optional noise reduction, then the pedalboard chain
noise gate, compressor, low-shelf filter and output gain, in that fixed
order, each at the configured sample rate. -/
def process_audio_enhancement (S : Stages A) (pr : EnhanceParams) (buf : A) : A :=
  let b1 := if pr.noise_reduction then
      S.reduce_noise buf pr.sample_rate pr.noise_stationary pr.noise_prop_decrease
    else buf
  let b2 := S.noise_gate pr.gate_threshold pr.gate_ratio_val pr.gate_release pr.sample_rate b1
  let b3 := S.compressor pr.comp_threshold pr.comp_ratio_val pr.sample_rate b2
  let b4 := S.low_shelf_filter pr.low_shelf_cutoff pr.low_shelf_gain pr.sample_rate b3
  S.gain pr.output_gain pr.sample_rate b4

/-- The reduced chain named by the specification: noise gate, compressor,
low-shelf filter and output gain only, stated from the spec words for the
refinement comparison of the noise-reduction toggle. -/
def reducedChainSpec (S : Stages A) (pr : EnhanceParams) (buf : A) : A :=
  S.gain pr.output_gain pr.sample_rate
    (S.low_shelf_filter pr.low_shelf_cutoff pr.low_shelf_gain pr.sample_rate
      (S.compressor pr.comp_threshold pr.comp_ratio_val pr.sample_rate
        (S.noise_gate pr.gate_threshold pr.gate_ratio_val pr.gate_release pr.sample_rate buf)))

/-- Boolean test: the row is skipped by the loop (a NaN field). -/
def rowSkipB (r : Row) : Bool :=
  r.voice.isNone || r.text.isNone

/-- Boolean test: the row passes validation and is synthesized. -/
def rowValidB (av : List String) (r : Row) : Bool :=
  match r.voice, r.text with
  | some v, some t => !(v == "") && decide (v ∈ av) && !(pyStrip t == "")
  | _, _ => false

/-- Boolean test: the row does not raise (it is skipped or valid). -/
def rowPassB (av : List String) (r : Row) : Bool :=
  rowSkipB r || rowValidB av r

/-- A concrete stand-in synthesis engine for witnesses: one sample at 100 Hz. -/
def K1 : String → String → List ℚ × ℕ :=
  fun _ _ => ([1], 100)

/-- A concrete stand-in random-duration stream for witnesses: always 0.5 s. -/
def P1 : ℕ → ℚ :=
  fun _ => mkRat 1 2

/-- Claim C7: the four concrete contract cases of `validate_color`. -/
theorem validate_color_concrete_cases :
    validate_color (.tup [255, 0, 0, 255]) = .ok "#ff0000" ∧
    validate_color (.str "#ABC") = .ok "#ABC" ∧
    validate_color (.str "rgba(0,128,255,1)") = .ok "#0080ff" ∧
    validate_color (.tup [1, 2, 3]) =
      .error "Invalid RGBA format. Expected a tuple (R, G, B, A)" :=
  ⟨rfl, rfl, rfl, rfl⟩

/-- Claim C8: the audiobook paragraph split of `"A\n\nB\n\n\nC"` is exactly
`["A", "B", "C"]`: blank-line runs collapse, entries are trimmed, and no
empty entry remains. -/
theorem audiobook_paragraph_split_concrete :
    audiobook_paragraphs "A\n\nB\n\n\nC" = ["A", "B", "C"] :=
  rfl

/-- Claim C5: with `noise_reduction = false` the enhancement equals the reduced
chain noise gate, compressor, low-shelf filter, output gain with the same
parameters, and the noise-reduction stage is never invoked: the output does
not depend on the `reduce_noise` implementation at all. -/
theorem enhancement_without_noise_reduction (S T : Stages A) (pr : EnhanceParams)
    (buf : A) (hnr : pr.noise_reduction = false)
    (hg : T.noise_gate = S.noise_gate) (hc : T.compressor = S.compressor)
    (hl : T.low_shelf_filter = S.low_shelf_filter) (hga : T.gain = S.gain) :
    process_audio_enhancement S pr buf = reducedChainSpec S pr buf ∧
    process_audio_enhancement S pr buf = process_audio_enhancement T pr buf := by
  unfold process_audio_enhancement reducedChainSpec
  rw [hnr, hg, hc, hl, hga]
  exact ⟨rfl, rfl⟩

/-- Stand-in DSP stage implementations for the C5 witness. -/
def S0 : Stages ℚ where
  reduce_noise := fun b _ _ _ => b
  noise_gate := fun _ _ _ _ b => b
  compressor := fun _ _ _ b => b
  low_shelf_filter := fun _ _ _ b => b
  gain := fun _ _ b => b

/-- A second stage record differing from `S0` only in `reduce_noise`. -/
def T0 : Stages ℚ where
  reduce_noise := fun b _ _ _ => b + b
  noise_gate := fun _ _ _ _ b => b
  compressor := fun _ _ _ b => b
  low_shelf_filter := fun _ _ _ b => b
  gain := fun _ _ b => b

/-- Concrete enhancement parameters with the noise reduction disabled. -/
def EP0 : EnhanceParams where
  sample_rate := 44100
  noise_reduction := false
  noise_stationary := true
  noise_prop_decrease := mkRat 3 4
  gate_threshold := -30
  gate_ratio_val := mkRat 3 2
  gate_release := 250
  comp_threshold := -16
  comp_ratio_val := mkRat 5 2
  low_shelf_cutoff := 400
  low_shelf_gain := 10
  output_gain := 10

/-- Witness for C5 at concrete stages, parameters and buffer. -/
theorem enhancement_without_noise_reduction_witness :
    process_audio_enhancement S0 EP0 0 = reducedChainSpec S0 EP0 0 ∧
    process_audio_enhancement S0 EP0 0 = process_audio_enhancement T0 EP0 0 :=
  enhancement_without_noise_reduction S0 T0 EP0 0 rfl rfl rfl rfl rfl

lemma podcastLoop_of_all_skip (kok : String → String → List ℚ × ℕ)
    (av : List String) (p : ℕ → ℚ) :
    ∀ (rows : List Row) (i : ℕ) (chunks : List (List (ℚ × ℚ))) (sr : Option ℕ),
      (∀ r ∈ rows, rowSkipB r = true) →
      podcastLoop kok av p i rows chunks sr = .ok (sr, chunks) := by
  intro rows
  induction rows with
  | nil => intro i chunks sr _; rfl
  | cons r rest ih =>
    intro i chunks sr h
    have hr := h r (List.mem_cons_self r rest)
    have hrest : ∀ x ∈ rest, rowSkipB x = true :=
      fun x hx => h x (List.mem_cons_of_mem r hx)
    obtain ⟨rv, rt⟩ := r
    cases rv with
    | none => simpa [podcastLoop] using ih (i + 1) chunks sr hrest
    | some v =>
      cases rt with
      | none => simpa [podcastLoop] using ih (i + 1) chunks sr hrest
      | some t => simp [rowSkipB] at hr

/-- Claim C1 (amended): when every row of the script is blank (a NaN field) — in
particular when the script is empty — `create_podcast` does not return an
empty buffer: the internal `np.concatenate([])` raises, the handler catches
it, and the caller receives `None`. -/
theorem podcast_all_blank_returns_none (kok : String → String → List ℚ × ℕ)
    (av : List String) (p : ℕ → ℚ) (rows : List Row)
    (h : ∀ r ∈ rows, rowSkipB r = true) :
    create_podcast_body kok av p rows = .error "need at least one array to concatenate" ∧
    create_podcast kok av p rows = none := by
  have hloop := podcastLoop_of_all_skip kok av p rows 0 [] none h
  constructor
  · unfold create_podcast_body
    rw [hloop]
    rfl
  · unfold create_podcast create_podcast_body
    rw [hloop]
    rfl

/-- Witness for the amended C1 at a one-row table whose voice cell is NaN. -/
theorem podcast_all_blank_returns_none_witness :
    create_podcast_body K1 ["af"] P1 [⟨none, some "hello"⟩] =
      .error "need at least one array to concatenate" ∧
    create_podcast K1 ["af"] P1 [⟨none, some "hello"⟩] = none :=
  podcast_all_blank_returns_none K1 ["af"] P1 [⟨none, some "hello"⟩] (by decide)

/-- Claim C1, counterexample to the claim as stated: on the empty script the code
does not return an empty buffer without error; the body raises at the
concatenation step and the function returns `None`. -/
theorem podcast_empty_counterexample :
    create_podcast_body K1 ["af"] P1 [] = .error "need at least one array to concatenate" ∧
    create_podcast K1 ["af"] P1 [] = none :=
  ⟨rfl, rfl⟩

lemma podcastLoop_error_of_invalid_at (kok : String → String → List ℚ × ℕ)
    (av : List String) (p : ℕ → ℚ) :
    ∀ (rows : List Row) (k i : ℕ) (chunks : List (List (ℚ × ℚ))) (sr : Option ℕ)
      (v t : String),
      k < rows.length →
      (∀ j, j < k → rowPassB av (rows.getD j ⟨none, none⟩) = true) →
      (rows.getD k ⟨none, none⟩).voice = some v →
      (rows.getD k ⟨none, none⟩).text = some t →
      (v = "" ∨ v ∉ av) →
      podcastLoop kok av p i rows chunks sr =
        .error ("Invalid voice \x27" ++ v ++ "\x27 at row " ++ toString (i + k + 1)) := by
  intro rows
  induction rows with
  | nil => intro k i chunks sr v t hk; exact absurd hk (Nat.not_lt_zero k)
  | cons r rest ih =>
    intro k i chunks sr v t hk hpass hv ht hbad
    cases k with
    | zero =>
      simp only [List.getD_cons_zero] at hv ht
      obtain ⟨rv, rt⟩ := r
      simp only at hv ht
      subst hv; subst ht
      simp only [podcastLoop]
      rw [if_pos hbad]
    | succ kk =>
      have hr : rowPassB av r = true := by
        have := hpass 0 (Nat.succ_pos kk)
        simpa using this
      have hpassrest : ∀ j, j < kk → rowPassB av (rest.getD j ⟨none, none⟩) = true := by
        intro j hj
        have := hpass (j + 1) (Nat.succ_lt_succ hj)
        simpa using this
      have hvrest : (rest.getD kk ⟨none, none⟩).voice = some v := by simpa using hv
      have htrest : (rest.getD kk ⟨none, none⟩).text = some t := by simpa using ht
      have hklt : kk < rest.length := by simpa using hk
      obtain ⟨rv, rt⟩ := r
      cases rv with
      | none =>
        have := ih kk (i + 1) chunks sr v t hklt hpassrest hvrest htrest hbad
        have harith : i + 1 + kk + 1 = i + (kk + 1) + 1 := by omega
        rw [harith] at this
        simpa [podcastLoop] using this
      | some v0 =>
        cases rt with
        | none =>
          have := ih kk (i + 1) chunks sr v t hklt hpassrest hvrest htrest hbad
          have harith : i + 1 + kk + 1 = i + (kk + 1) + 1 := by omega
          rw [harith] at this
          simpa [podcastLoop] using this
        | some t0 =>
          have hval : rowValidB av ⟨some v0, some t0⟩ = true := by
            simpa [rowPassB, rowSkipB] using hr
          simp only [rowValidB, Bool.and_eq_true, bne_iff_ne, ne_eq,
            decide_eq_true_eq, beq_iff_eq, Bool.not_eq_eq_eq_not,
            Bool.not_true, beq_eq_false_iff_ne] at hval
          obtain ⟨⟨hv0, hmem⟩, ht0⟩ := hval
          have hnotbad : ¬(v0 = "" ∨ v0 ∉ av) := by
            rintro (h1 | h1)
            · exact hv0 h1
            · exact h1 hmem
          simp only [podcastLoop]
          rw [if_neg hnotbad, if_neg ht0]
          have := ih kk (i + 1)
            (chunks ++ [(kok t0 v0).1.map (fun x => (x, x)),
              List.replicate (silenceSamples (p i) (kok t0 v0).2) (0, 0)])
            (some (kok t0 v0).2) v t hklt hpassrest hvrest htrest hbad
          have harith : i + 1 + kk + 1 = i + (kk + 1) + 1 := by omega
          rw [harith] at this
          exact this

/-- Claim C2: for a script whose rows before position `k` are blank-skipped or
valid and whose row `k` (0-based; row `k + 1` in the 1-based numbering of the
error message) carries a voice outside the available set, the body of
`create_podcast` raises the invalid-voice `ValueError` naming that 1-based
row, and the caller receives `None` — no partial audio buffer. -/
theorem podcast_invalid_voice_error (kok : String → String → List ℚ × ℕ)
    (av : List String) (p : ℕ → ℚ) (rows : List Row) (k : ℕ) (v t : String)
    (hk : k < rows.length)
    (hpass : ∀ j, j < k → rowPassB av (rows.getD j ⟨none, none⟩) = true)
    (hv : (rows.getD k ⟨none, none⟩).voice = some v)
    (ht : (rows.getD k ⟨none, none⟩).text = some t)
    (hbad : v = "" ∨ v ∉ av) :
    create_podcast_body kok av p rows =
      .error ("Invalid voice \x27" ++ v ++ "\x27 at row " ++ toString (k + 1)) ∧
    create_podcast kok av p rows = none := by
  have hloop := podcastLoop_error_of_invalid_at kok av p rows k 0 [] none v t
    hk hpass hv ht hbad
  have harith : 0 + k + 1 = k + 1 := by omega
  rw [harith] at hloop
  constructor
  · unfold create_podcast_body
    rw [hloop]
  · unfold create_podcast create_podcast_body
    rw [hloop]
    rfl

/-- Witness for C2: a valid first row and an invalid voice on row 2. -/
theorem podcast_invalid_voice_error_witness :
    create_podcast_body K1 ["af"] P1
        [⟨some "af", some "hi"⟩, ⟨some "xx", some "yo"⟩] =
      .error "Invalid voice \x27xx\x27 at row 2" ∧
    create_podcast K1 ["af"] P1
        [⟨some "af", some "hi"⟩, ⟨some "xx", some "yo"⟩] = none :=
  podcast_invalid_voice_error K1 ["af"] P1
    [⟨some "af", some "hi"⟩, ⟨some "xx", some "yo"⟩] 1 "xx" "yo"
    (by decide) (by decide) rfl rfl (Or.inr (by decide))

/-- Claim C4 (amended): in the table loop a row is skipped exactly when one of its
cells is NaN — `pd.isna(voice) or pd.isna(text)` — including rows where only
one field is missing; a row whose cells are both present but hold an empty
voice string or blank text is not skipped but fails validation. -/
theorem podcast_skip_rule (kok : String → String → List ℚ × ℕ) (av : List String)
    (p : ℕ → ℚ) (i : ℕ) (r : Row) (rest : List Row)
    (chunks : List (List (ℚ × ℚ))) (sr : Option ℕ) :
    ((r.voice = none ∨ r.text = none) →
      podcastLoop kok av p i (r :: rest) chunks sr =
        podcastLoop kok av p (i + 1) rest chunks sr) ∧
    (∀ v t, r.voice = some v → r.text = some t → (v = "" ∨ v ∉ av) →
      podcastLoop kok av p i (r :: rest) chunks sr =
        .error ("Invalid voice \x27" ++ v ++ "\x27 at row " ++ toString (i + 1))) ∧
    (∀ v t, r.voice = some v → r.text = some t → ¬(v = "" ∨ v ∉ av) →
      pyStrip t = "" →
      podcastLoop kok av p i (r :: rest) chunks sr =
        .error ("Empty text at row " ++ toString (i + 1))) := by
  obtain ⟨rv, rt⟩ := r
  refine ⟨?_, ?_, ?_⟩
  · rintro (h | h) <;> simp only at h <;> subst h
    · simp [podcastLoop]
    · cases rv <;> simp [podcastLoop]
  · intro v t hv ht hbad
    simp only at hv ht
    subst hv; subst ht
    simp only [podcastLoop]
    rw [if_pos hbad]
  · intro v t hv ht hgood hblank
    simp only at hv ht
    subst hv; subst ht
    simp only [podcastLoop]
    rw [if_neg hgood, if_pos hblank]

/-- Witness for the amended C4: a voice-NaN row is skipped; an empty-string
voice and a whitespace text (both cells present) fail validation. -/
theorem podcast_skip_rule_witness :
    podcastLoop K1 ["af"] P1 0 [⟨none, some "hello"⟩] [] none =
      podcastLoop K1 ["af"] P1 1 [] [] none ∧
    podcastLoop K1 ["af"] P1 0 [⟨some "", some "x"⟩] [] none =
      .error "Invalid voice \x27\x27 at row 1" ∧
    podcastLoop K1 ["af"] P1 0 [⟨some "af", some " "⟩] [] none =
      .error "Empty text at row 1" :=
  ⟨(podcast_skip_rule K1 ["af"] P1 0 ⟨none, some "hello"⟩ [] [] none).1
      (Or.inl rfl),
    (podcast_skip_rule K1 ["af"] P1 0 ⟨some "", some "x"⟩ [] [] none).2.1
      "" "x" rfl rfl (Or.inl rfl),
    (podcast_skip_rule K1 ["af"] P1 0 ⟨some "af", some " "⟩ [] [] none).2.2
      "af" " " rfl rfl (by decide) rfl⟩

/-- Claim C4, counterexample to the claim as stated: a row that is blank in only one
field (voice NaN, text present) is silently skipped, not rejected — the
two-row script below succeeds and returns the audio of row 1 alone. -/
theorem podcast_one_sided_blank_counterexample :
    create_podcast K1 ["af"] P1 [⟨some "af", some "hi"⟩, ⟨none, some "orphan"⟩] =
      some (some 100, ((1 : ℚ), (1 : ℚ)) :: List.replicate 50 ((0 : ℚ), (0 : ℚ))) := by
  decide

/-- The expected audio structure of a pass-through script: for each row with
both cells present, the stereo segment produced by the engine paired with the
stereo silence that the loop appends right after it. -/
def chunkPairs (kok : String → String → List ℚ × ℕ) (p : ℕ → ℚ) :
    ℕ → List Row → List (List (ℚ × ℚ) × List (ℚ × ℚ))
  | _, [] => []
  | i, r :: rest =>
    match r.voice, r.text with
    | some v, some t =>
        ((kok t v).1.map (fun x => (x, x)),
          List.replicate (silenceSamples (p i) (kok t v).2) ((0 : ℚ), (0 : ℚ))) ::
          chunkPairs kok p (i + 1) rest
    | _, _ => chunkPairs kok p (i + 1) rest

lemma podcastLoop_of_all_pass (kok : String → String → List ℚ × ℕ)
    (av : List String) (p : ℕ → ℚ) :
    ∀ (rows : List Row) (i : ℕ) (chunks : List (List (ℚ × ℚ))) (sr : Option ℕ),
      (∀ r ∈ rows, rowPassB av r = true) →
      ∃ sr2, podcastLoop kok av p i rows chunks sr =
        .ok (sr2, chunks ++ (chunkPairs kok p i rows).flatMap (fun c => [c.1, c.2])) := by
  intro rows
  induction rows with
  | nil => intro i chunks sr _; exact ⟨sr, by simp [podcastLoop, chunkPairs]⟩
  | cons r rest ih =>
    intro i chunks sr h
    have hr := h r (List.mem_cons_self r rest)
    have hrest : ∀ x ∈ rest, rowPassB av x = true :=
      fun x hx => h x (List.mem_cons_of_mem r hx)
    obtain ⟨rv, rt⟩ := r
    cases rv with
    | none =>
      obtain ⟨sr2, hs⟩ := ih (i + 1) chunks sr hrest
      exact ⟨sr2, by simpa [podcastLoop, chunkPairs] using hs⟩
    | some v =>
      cases rt with
      | none =>
        obtain ⟨sr2, hs⟩ := ih (i + 1) chunks sr hrest
        exact ⟨sr2, by simpa [podcastLoop, chunkPairs] using hs⟩
      | some t =>
        have hval : rowValidB av ⟨some v, some t⟩ = true := by
          simpa [rowPassB, rowSkipB] using hr
        simp only [rowValidB, Bool.and_eq_true, bne_iff_ne, ne_eq,
          decide_eq_true_eq, beq_iff_eq, Bool.not_eq_eq_eq_not,
          Bool.not_true, beq_eq_false_iff_ne] at hval
        obtain ⟨⟨hv0, hmem⟩, ht0⟩ := hval
        have hnotbad : ¬(v = "" ∨ v ∉ av) := by
          rintro (h1 | h1)
          · exact hv0 h1
          · exact h1 hmem
        obtain ⟨sr2, hs⟩ := ih (i + 1)
          (chunks ++ [(kok t v).1.map (fun x => (x, x)),
            List.replicate (silenceSamples (p i) (kok t v).2) (0, 0)])
          (some (kok t v).2) hrest
        refine ⟨sr2, ?_⟩
        simp only [podcastLoop]
        rw [if_neg hnotbad, if_neg ht0]
        rw [hs]
        simp [chunkPairs, List.append_assoc]

lemma chunkPairs_ne_nil (kok : String → String → List ℚ × ℕ) (p : ℕ → ℚ) :
    ∀ (rows : List Row) (i : ℕ) (r : Row),
      r ∈ rows → rowSkipB r = false → chunkPairs kok p i rows ≠ [] := by
  intro rows
  induction rows with
  | nil => intro i r hr; exact absurd hr (List.not_mem_nil r)
  | cons q rest ih =>
    intro i r hr hskip
    rcases List.mem_cons.mp hr with h | h
    · subst h
      obtain ⟨rv, rt⟩ := r
      cases rv with
      | none => simp [rowSkipB] at hskip
      | some v =>
        cases rt with
        | none => simp [rowSkipB] at hskip
        | some t => simp [chunkPairs]
    · obtain ⟨qv, qt⟩ := q
      cases qv with
      | none => simpa [chunkPairs] using ih (i + 1) r h hskip
      | some v =>
        cases qt with
        | none => simpa [chunkPairs] using ih (i + 1) r h hskip
        | some t => simp [chunkPairs]

lemma flatMap_pair_flatten (L : List (List (ℚ × ℚ) × List (ℚ × ℚ))) :
    (L.flatMap (fun c => [c.1, c.2])).flatten = L.flatMap (fun c => c.1 ++ c.2) := by
  induction L with
  | nil => rfl
  | cons c rest ih => simp [ih]

lemma flatMap_pair_length (L : List (List (ℚ × ℚ) × List (ℚ × ℚ))) :
    (L.flatMap (fun c => c.1 ++ c.2)).length =
      (L.map (fun c => c.1.length + c.2.length)).sum := by
  induction L with
  | nil => rfl
  | cons c rest ih =>
    simp [ih]
    omega

/-- The audiobook silence lemma: flattening the per-paragraph chunk list of
`text_to_audiobook` gives, for every paragraph including the last one, the
mono segment immediately followed by its fixed `int(0.5 * sr)`-sample pause. -/
lemma audiobook_chunks_flatten (kb : String → List ℚ × ℕ) :
    ∀ ps : List String,
      (audiobook_chunks kb ps).flatten =
        ps.flatMap (fun par => (kb par).1 ++
          List.replicate (silenceSamples (mkRat 1 2) (kb par).2) 0) := by
  intro ps
  induction ps with
  | nil => rfl
  | cons a rest ih => simp [audiobook_chunks, ih]

/-- Length of the flattened audiobook chunks: the sum over paragraphs of
segment length plus pause length. -/
lemma audiobook_chunks_length (kb : String → List ℚ × ℕ) :
    ∀ ps : List String,
      (audiobook_chunks kb ps).flatten.length =
        (ps.map (fun par => (kb par).1.length +
          silenceSamples (mkRat 1 2) (kb par).2)).sum := by
  intro ps
  induction ps with
  | nil => rfl
  | cons a rest ih =>
    simp [audiobook_chunks, ih]
    omega

/-- Claim C3 (amended): in both assembly paths the pause is appended after
every synthesized segment, including the final one, not only between
consecutive segments.  For a non-empty script of blank-or-valid rows, the
podcast output buffer is the in-order concatenation of, for each synthesized
row, its stereo segment followed by its random-duration pause segment, and
the output length in frames is the sum over rows of segment length plus
pause length; likewise, for every paragraph list, the audiobook chunk list
concatenates each mono segment followed by its fixed 0.5-second pause, with
total length the sum over paragraphs of segment length plus pause length. -/
theorem podcast_concat_structure (kok : String → String → List ℚ × ℕ)
    (av : List String) (p : ℕ → ℚ) (rows : List Row)
    (hpass : ∀ r ∈ rows, rowPassB av r = true)
    (hne : ∃ r ∈ rows, rowSkipB r = false) :
    (∃ sr2,
      create_podcast_body kok av p rows =
        .ok (sr2, (chunkPairs kok p 0 rows).flatMap (fun c => c.1 ++ c.2)) ∧
      create_podcast kok av p rows =
        some (sr2, (chunkPairs kok p 0 rows).flatMap (fun c => c.1 ++ c.2)) ∧
      ((chunkPairs kok p 0 rows).flatMap (fun c => c.1 ++ c.2)).length =
        ((chunkPairs kok p 0 rows).map (fun c => c.1.length + c.2.length)).sum) ∧
    (∀ (kb : String → List ℚ × ℕ) (ps : List String),
      (audiobook_chunks kb ps).flatten =
        ps.flatMap (fun par => (kb par).1 ++
          List.replicate (silenceSamples (mkRat 1 2) (kb par).2) 0) ∧
      (audiobook_chunks kb ps).flatten.length =
        (ps.map (fun par => (kb par).1.length +
          silenceSamples (mkRat 1 2) (kb par).2)).sum) := by
  constructor
  · obtain ⟨sr2, hloop⟩ := podcastLoop_of_all_pass kok av p rows 0 [] none hpass
    obtain ⟨r, hr, hskip⟩ := hne
    have hnil := chunkPairs_ne_nil kok p rows 0 r hr hskip
    have hflat : (chunkPairs kok p 0 rows).flatMap (fun c => [c.1, c.2]) ≠ [] := by
      cases hcp : chunkPairs kok p 0 rows with
      | nil => exact absurd hcp hnil
      | cons c rest => simp
    refine ⟨sr2, ?_, ?_, flatMap_pair_length _⟩
    · unfold create_podcast_body
      rw [hloop]
      simp only [List.nil_append]
      rw [if_neg hflat]
      rw [flatMap_pair_flatten]
    · unfold create_podcast create_podcast_body
      rw [hloop]
      simp only [List.nil_append]
      rw [if_neg hflat]
      rw [flatMap_pair_flatten]
      rfl
  · intro kb ps
    exact ⟨audiobook_chunks_flatten kb ps, audiobook_chunks_length kb ps⟩

/-- A concrete stand-in narrator engine for the audiobook half of the C3
witness: one sample at 100 Hz for every paragraph. -/
def KB1 : String → List ℚ × ℕ :=
  fun _ => ([1], 100)

/-- Witness for the amended C3 at a concrete two-row podcast script and a
concrete one-paragraph audiobook. -/
theorem podcast_concat_structure_witness :
    (∃ sr2,
      create_podcast_body K1 ["af"] P1 [⟨some "af", some "hi"⟩, ⟨some "af", some "yo"⟩] =
        .ok (sr2, (chunkPairs K1 P1 0
          [⟨some "af", some "hi"⟩, ⟨some "af", some "yo"⟩]).flatMap (fun c => c.1 ++ c.2)) ∧
      create_podcast K1 ["af"] P1 [⟨some "af", some "hi"⟩, ⟨some "af", some "yo"⟩] =
        some (sr2, (chunkPairs K1 P1 0
          [⟨some "af", some "hi"⟩, ⟨some "af", some "yo"⟩]).flatMap (fun c => c.1 ++ c.2)) ∧
      ((chunkPairs K1 P1 0
          [⟨some "af", some "hi"⟩, ⟨some "af", some "yo"⟩]).flatMap (fun c => c.1 ++ c.2)).length =
        ((chunkPairs K1 P1 0
          [⟨some "af", some "hi"⟩, ⟨some "af", some "yo"⟩]).map
            (fun c => c.1.length + c.2.length)).sum) ∧
    ((audiobook_chunks KB1 ["A"]).flatten =
        ["A"].flatMap (fun par => (KB1 par).1 ++
          List.replicate (silenceSamples (mkRat 1 2) (KB1 par).2) 0) ∧
      (audiobook_chunks KB1 ["A"]).flatten.length =
        (["A"].map (fun par => (KB1 par).1.length +
          silenceSamples (mkRat 1 2) (KB1 par).2)).sum) :=
  ⟨(podcast_concat_structure K1 ["af"] P1
      [⟨some "af", some "hi"⟩, ⟨some "af", some "yo"⟩] (by decide)
      ⟨⟨some "af", some "hi"⟩, List.mem_cons_self _ _, rfl⟩).1,
    (podcast_concat_structure K1 ["af"] P1
      [⟨some "af", some "hi"⟩, ⟨some "af", some "yo"⟩] (by decide)
      ⟨⟨some "af", some "hi"⟩, List.mem_cons_self _ _, rfl⟩).2 KB1 ["A"]⟩

/-- Claim C3, counterexample to the claim as stated: a single-line script yields a
buffer of 51 frames — the 1-frame segment plus a 50-frame trailing pause —
although with pauses only between consecutive segments the buffer would be
exactly the 1-frame segment. -/
theorem podcast_trailing_pause_counterexample :
    create_podcast K1 ["af"] P1 [⟨some "af", some "hi"⟩] =
      some (some 100, ((1 : ℚ), (1 : ℚ)) :: List.replicate 50 ((0 : ℚ), (0 : ℚ))) ∧
    (((1 : ℚ), (1 : ℚ)) :: List.replicate 50 ((0 : ℚ), (0 : ℚ))).length = 51 ∧
    (K1 "hi" "af").1.length = 1 := by
  refine ⟨by decide, by decide, by decide⟩

/-- Claim C6 (amended): on a four-component tuple, `validate_color` rounds the
first three components (Python banker's rounding) and discards the alpha, but
does not clamp: when every rounded channel lies in 0-255, the result is the
normalized lowercase hex string of the rounded channels; when any rounded
channel falls outside 0-255, the call raises the matplotlib range error
instead of clamping. -/
theorem validate_color_rounds_without_clamping (c0 c1 c2 c3 : ℚ) :
    ((0 ≤ pyRound c0 ∧ pyRound c0 ≤ 255) → (0 ≤ pyRound c1 ∧ pyRound c1 ≤ 255) →
      (0 ≤ pyRound c2 ∧ pyRound c2 ≤ 255) →
      validate_color (.tup [c0, c1, c2, c3]) =
        .ok ("#" ++ String.join [hex2 (pyRound c0).toNat, hex2 (pyRound c1).toNat,
          hex2 (pyRound c2).toNat])) ∧
    ((pyRound c0 < 0 ∨ 255 < pyRound c0 ∨ pyRound c1 < 0 ∨ 255 < pyRound c1 ∨
        pyRound c2 < 0 ∨ 255 < pyRound c2) →
      validate_color (.tup [c0, c1, c2, c3]) =
        .error "RGBA values should be within 0-1 range") := by
  constructor
  · intro h0 h1 h2
    show mcolorsToHexOfBytes [pyRound c0, pyRound c1, pyRound c2] = _
    unfold mcolorsToHexOfBytes
    rw [if_neg]
    · rfl
    · intro hany
      rw [List.any_eq_true] at hany
      obtain ⟨k, hk, hdec⟩ := hany
      have hout := of_decide_eq_true hdec
      rcases List.mem_cons.mp hk with h | h
      · subst h; rcases hout with h | h <;> omega
      rcases List.mem_cons.mp h with h | h
      · subst h; rcases hout with h | h <;> omega
      rcases List.mem_cons.mp h with h | h
      · subst h; rcases hout with h | h <;> omega
      · exact absurd h (List.not_mem_nil k)
  · intro hbad
    show mcolorsToHexOfBytes [pyRound c0, pyRound c1, pyRound c2] = _
    unfold mcolorsToHexOfBytes
    rw [if_pos]
    rw [List.any_eq_true]
    rcases hbad with h | h | h | h | h | h
    · exact ⟨pyRound c0, List.mem_cons_self _ _, decide_eq_true (Or.inl h)⟩
    · exact ⟨pyRound c0, List.mem_cons_self _ _, decide_eq_true (Or.inr h)⟩
    · exact ⟨pyRound c1, List.mem_cons_of_mem _ (List.mem_cons_self _ _),
        decide_eq_true (Or.inl h)⟩
    · exact ⟨pyRound c1, List.mem_cons_of_mem _ (List.mem_cons_self _ _),
        decide_eq_true (Or.inr h)⟩
    · exact ⟨pyRound c2, List.mem_cons_of_mem _ (List.mem_cons_of_mem _
        (List.mem_cons_self _ _)), decide_eq_true (Or.inl h)⟩
    · exact ⟨pyRound c2, List.mem_cons_of_mem _ (List.mem_cons_of_mem _
        (List.mem_cons_self _ _)), decide_eq_true (Or.inr h)⟩

/-- Witness for the amended C6: an in-range tuple formats to hex and an
out-of-range component raises the range error. -/
theorem validate_color_rounds_without_clamping_witness :
    validate_color (.tup [128, 0, 255, 7]) = .ok "#8000ff" ∧
    validate_color (.tup [300, 0, 0, 7]) = .error "RGBA values should be within 0-1 range" :=
  ⟨(validate_color_rounds_without_clamping 128 0 255 7).1
      (by decide) (by decide) (by decide),
    (validate_color_rounds_without_clamping 300 0 0 7).2
      (Or.inr (Or.inl (by decide)))⟩

/-- Claim C6, counterexample to the claim as stated: the component 300 is not
clamped to 255 — `validate_color((300, 0, 0, 0))` raises the matplotlib
0-1-range error rather than returning the clamped color `"#ff0000"`. -/
theorem validate_color_clamp_counterexample :
    validate_color (.tup [300, 0, 0, 0]) = .error "RGBA values should be within 0-1 range" ∧
    validate_color (.tup [300, 0, 0, 0]) ≠ .ok "#ff0000" :=
  ⟨rfl, fun h => nomatch h⟩

/-- Boolean test: the uploaded line parses without error. -/
def lineOkB (av : List String) (l : String) : Bool :=
  match lineResult av l with
  | .ok _ => true
  | .error _ => false

/-- The table entries contributed by one uploaded line: none for a skipped
blank line, the parsed pair for a valid line. -/
def lineEntries (av : List String) (l : String) : List (String × String) :=
  match lineResult av l with
  | .ok (some e) => [e]
  | _ => []

/-- `handle_file_upload` expressed on the list of lines of the file. -/
def handle_upload_lines (av : List String) (lines : List String) :
    Except String (List (String × String)) :=
  match uploadLoop av 1 lines [] with
  | .error m => .error ("File processing error: " ++ m)
  | .ok d => .ok d

lemma uploadLoop_of_all_ok (av : List String) :
    ∀ (lines : List String) (n : ℕ) (acc : List (String × String)),
      (∀ l ∈ lines, lineOkB av l = true) →
      uploadLoop av n lines acc = .ok (acc ++ lines.flatMap (lineEntries av)) := by
  intro lines
  induction lines with
  | nil => intro n acc _; simp [uploadLoop]
  | cons l rest ih =>
    intro n acc h
    have hl := h l (List.mem_cons_self l rest)
    have hrest : ∀ x ∈ rest, lineOkB av x = true :=
      fun x hx => h x (List.mem_cons_of_mem l hx)
    cases hres : lineResult av l with
    | error m => simp [lineOkB, hres] at hl
    | ok o =>
      cases o with
      | none =>
        have := ih (n + 1) acc hrest
        simp only [uploadLoop]
        rw [hres]
        exact this.trans (by simp [lineEntries, hres])
      | some e =>
        have := ih (n + 1) (acc ++ [e]) hrest
        simp only [uploadLoop]
        rw [hres]
        exact this.trans (by simp [lineEntries, hres])

lemma uploadLoop_error_at (av : List String) :
    ∀ (lines : List String) (k n : ℕ) (acc : List (String × String)) (m : String),
      k < lines.length →
      (∀ j, j < k → lineOkB av (lines.getD j "") = true) →
      lineResult av (lines.getD k "") = .error m →
      uploadLoop av n lines acc = .error ("Line " ++ toString (n + k) ++ ": " ++ m) := by
  intro lines
  induction lines with
  | nil => intro k n acc m hk; exact absurd hk (Nat.not_lt_zero k)
  | cons l rest ih =>
    intro k n acc m hk hpre herr
    cases k with
    | zero =>
      simp only [List.getD_cons_zero] at herr
      simp only [uploadLoop]
      rw [herr]
      have : n + 0 = n := by omega
      rw [this]
    | succ kk =>
      have hl : lineOkB av l = true := by
        have := hpre 0 (Nat.succ_pos kk)
        simpa using this
      have hprerest : ∀ j, j < kk → lineOkB av (rest.getD j "") = true := by
        intro j hj
        have := hpre (j + 1) (Nat.succ_lt_succ hj)
        simpa using this
      have herrrest : lineResult av (rest.getD kk "") = .error m := by
        simpa using herr
      have hklt : kk < rest.length := by simpa using hk
      cases hres : lineResult av l with
      | error m2 => simp [lineOkB, hres] at hl
      | ok o =>
        cases o with
        | none =>
          have := ih kk (n + 1) acc m hklt hprerest herrrest
          have harith : n + 1 + kk = n + (kk + 1) := by omega
          rw [harith] at this
          simp only [uploadLoop]
          rw [hres]
          exact this
        | some e =>
          have := ih kk (n + 1) (acc ++ [e]) m hklt hprerest herrrest
          have harith : n + 1 + kk = n + (kk + 1) := by omega
          rw [harith] at this
          simp only [uploadLoop]
          rw [hres]
          exact this

/-- Claim C9: the uploaded-script parser skips blank lines, splits each non-blank
line at the first colon into a lower-cased trimmed speaker and a trimmed
text, reports a missing colon, an unknown speaker, or empty text after the
colon as a fatal error naming the 1-based line number, produces no table on
error, and produces the in-order table of the parsed entries when every line
is blank or valid; `handle_file_upload` is this parser applied to the lines
of the file content, with errors re-wrapped in a file-processing message. -/
theorem upload_parser_spec (av : List String) (lines : List String) (k : ℕ) (m : String) :
    ((∀ l ∈ lines, lineOkB av l = true) →
      handle_upload_lines av lines = .ok (lines.flatMap (lineEntries av))) ∧
    (∀ l, pyStrip l = "" → lineResult av l = .ok none) ∧
    (∀ l a b, splitAtColon (pyStrip l).data = some (a, b) →
      pyStrip l ≠ "" →
      pyLower (pyStrip (String.mk a)) ∈ av →
      pyStrip (String.mk b) ≠ "" →
      lineResult av l = .ok (some (pyLower (pyStrip (String.mk a)),
        pyStrip (String.mk b)))) ∧
    (∀ l, pyStrip l ≠ "" → splitAtColon (pyStrip l).data = none →
      lineResult av l = .error "Missing colon separator") ∧
    (∀ l a b, splitAtColon (pyStrip l).data = some (a, b) →
      pyStrip l ≠ "" →
      pyLower (pyStrip (String.mk a)) ∉ av →
      lineResult av l = .error ("Voice \x27" ++ pyLower (pyStrip (String.mk a)) ++
        "\x27 not in available voices")) ∧
    (∀ l a b, splitAtColon (pyStrip l).data = some (a, b) →
      pyStrip l ≠ "" →
      pyLower (pyStrip (String.mk a)) ∈ av →
      pyStrip (String.mk b) = "" →
      lineResult av l = .error "Empty text after colon") ∧
    (k < lines.length →
      (∀ j, j < k → lineOkB av (lines.getD j "") = true) →
      lineResult av (lines.getD k "") = .error m →
      handle_upload_lines av lines =
        .error ("File processing error: " ++
          ("Line " ++ toString (1 + k) ++ ": " ++ m))) ∧
    (∀ content, handle_file_upload av content =
      handle_upload_lines av (pySplitLines content)) := by
  refine ⟨?_, ?_, ?_, ?_, ?_, ?_, ?_, fun _ => rfl⟩
  · intro h
    unfold handle_upload_lines
    rw [uploadLoop_of_all_ok av lines 1 [] h]
    rfl
  · intro l hblank
    unfold lineResult
    rw [if_pos hblank]
  · intro l a b hsplit hnb hmem hnet
    unfold lineResult
    rw [if_neg hnb, hsplit]
    simp only
    rw [if_pos hmem, if_neg hnet]
  · intro l hnb hsplit
    unfold lineResult
    rw [if_neg hnb, hsplit]
  · intro l a b hsplit hnb hmem
    unfold lineResult
    rw [if_neg hnb, hsplit]
    simp only
    rw [if_neg hmem]
  · intro l a b hsplit hnb hmem het
    unfold lineResult
    rw [if_neg hnb, hsplit]
    simp only
    rw [if_pos hmem, if_pos het]
  · intro hk hpre herr
    unfold handle_upload_lines
    rw [uploadLoop_error_at av lines k 1 [] m hk hpre herr]

/-- Witness for C9: success on a three-line file with a blank line and mixed
casing, and the first-error message on a file whose second line lacks a
colon. -/
theorem upload_parser_spec_witness :
    handle_upload_lines ["alice"] ["alice: hi", "", " ALICE : yo "] =
      .ok [("alice", "hi"), ("alice", "yo")] ∧
    handle_upload_lines ["alice"] ["alice: hi", "no colon here"] =
      .error "File processing error: Line 2: Missing colon separator" :=
  ⟨(upload_parser_spec ["alice"] ["alice: hi", "", " ALICE : yo "] 0 "").1 (by decide),
    (upload_parser_spec ["alice"] ["alice: hi", "no colon here"] 1
      "Missing colon separator").2.2.2.2.2.2.1 (by decide) (by decide) rfl⟩

/-- Claim C10: the table loop of `create_podcast` tests voice membership exactly,
with no trimming or lower-casing — a voice differing from an available one
only by case (`"AF"`) or by surrounding whitespace (`" af "`) is rejected as
invalid — while the script-file parser lower-cases and trims the same
speaker into the valid voice `"af"` and accepts the line. -/
theorem voice_membership_is_exact (kok : String → String → List ℚ × ℕ)
    (p : ℕ → ℚ) (av : List String)
    (h1 : "af" ∈ av) (h2 : "AF" ∉ av) (h3 : " af " ∉ av) :
    create_podcast_body kok av p [⟨some "AF", some "hi"⟩] =
      .error "Invalid voice \x27AF\x27 at row 1" ∧
    create_podcast_body kok av p [⟨some " af ", some "hi"⟩] =
      .error "Invalid voice \x27 af \x27 at row 1" ∧
    uploadLoop av 1 ["AF: hi"] [] = .ok [("af", "hi")] ∧
    uploadLoop av 1 [" af : hi"] [] = .ok [("af", "hi")] := by
  refine ⟨?_, ?_, ?_, ?_⟩
  · unfold create_podcast_body
    simp only [podcastLoop]
    rw [if_pos (Or.inr h2)]
    rfl
  · unfold create_podcast_body
    simp only [podcastLoop]
    rw [if_pos (Or.inr h3)]
    rfl
  · have hl : lineResult av "AF: hi" =
        if "af" ∈ av then Except.ok (some ("af", "hi"))
        else Except.error "Voice \x27af\x27 not in available voices" := rfl
    simp only [uploadLoop]
    rw [hl, if_pos h1]
    rfl
  · have hl : lineResult av " af : hi" =
        if "af" ∈ av then Except.ok (some ("af", "hi"))
        else Except.error "Voice \x27af\x27 not in available voices" := rfl
    simp only [uploadLoop]
    rw [hl, if_pos h1]
    rfl

/-- Witness for C10 with the concrete voice set `["af"]`. -/
theorem voice_membership_is_exact_witness :
    create_podcast_body K1 ["af"] P1 [⟨some "AF", some "hi"⟩] =
      .error "Invalid voice \x27AF\x27 at row 1" ∧
    create_podcast_body K1 ["af"] P1 [⟨some " af ", some "hi"⟩] =
      .error "Invalid voice \x27 af \x27 at row 1" ∧
    uploadLoop ["af"] 1 ["AF: hi"] [] = .ok [("af", "hi")] ∧
    uploadLoop ["af"] 1 [" af : hi"] [] = .ok [("af", "hi")] :=
  voice_membership_is_exact K1 P1 ["af"] (by decide) (by decide) (by decide)
